import Mathlib

/-!
Verification of the obsidian-newledge plugin core (src/main.ts, src/setting.ts)
against its natural-language specification.

The TypeScript source is shallowly embedded as executable Lean definitions:
* remote calls and the vault adapter are modelled as oracle parameters
  (functions / `Except` values supplied by the environment);
* a thrown JS exception is modelled as `Except.error` carrying the error
  description string;
* JS string truthiness (`null`/`undefined`/`""` are falsy) is modelled by
  `truthyOpt` on `Option String`;
* the unbounded `while` loops (`sync` pagination, `_getFileName` probing)
  are given an explicit fuel parameter and return `Option`, `none` meaning
  the fuel ran out before the loop terminated;
* UI notices, the sleep throttle and folder creation (whose errors the
  source swallows) have no effect observable by any claim and are omitted.
-/

namespace Newledge

/-- JS truthiness of a nullable string: `null`/`undefined` and `""` are falsy. -/
def truthyOpt : Option String → Bool
  | none => false
  | some t => t ≠ ""

/-- Embedding of `NewledgeSettings` (src/setting.ts lines 12-31).
`user` is the pair (id, name).  `lastSyncTime` is an abstract timestamp. -/
structure Settings where
  token : Option String
  user : Option (String × String)
  sessionId : Option String
  syncing : Bool
  rootDir : String
  richTextDir : String
  linkDir : String
  syncInterval : Nat
  lastSyncTime : Option Nat
  enable : Bool
deriving DecidableEq

/-- Clearing of the credential fields performed by `checkAccount`
(src/main.ts lines 103-105). -/
def clearAuth (s : Settings) : Settings :=
  { s with token := none, user := none, sessionId := none }

/-- Response shape of the remote `getIntegration` call. -/
structure IntegrationResp where
  valid : Bool
  failedTaskCount : Nat
deriving DecidableEq

/-- Return shape of `checkAccount`. -/
structure CheckAccountResult where
  valid : Bool
  failedTaskCount : Nat
deriving DecidableEq

/-- Embedding of `_checkToken` (src/main.ts lines 410-442).
`decode` is the `jwtDecode` oracle: `none` means the decode throws, `some exp`
is the decoded expiry claim.  `now` is `Date.now()` in milliseconds. -/
def checkToken (decode : String → Option Nat) (now : Nat) :
    Option String → Bool × Bool
  | none => (false, false)
  | some t =>
    if t = "" then (false, false)
    else
      match decode t with
      | none => (false, false)
      | some exp => if exp * 1000 ≤ now then (true, false) else (true, true)

/-- Embedding of `checkAccount` (src/main.ts lines 74-113).
`integ` is the outcome of the remote `getIntegration` call (`Except.error` =
the call throws).  Returns the result, the settings after the call, and
whether `saveSettings` was invoked. -/
def checkAccount (decode : String → Option Nat) (now : Nat)
    (integ : Except String IntegrationResp) (s : Settings) :
    CheckAccountResult × Settings × Bool :=
  let p := checkToken decode now s.token
  let tokenValid := p.1 && p.2
  if tokenValid && truthyOpt s.token && truthyOpt s.sessionId then
    match integ with
    | .error _ => (⟨false, 0⟩, s, false)
    | .ok ir =>
      if !tokenValid || !ir.valid then
        (⟨tokenValid && ir.valid, ir.failedTaskCount⟩, clearAuth s, true)
      else
        (⟨tokenValid && ir.valid, ir.failedTaskCount⟩, s, false)
  else
    -- the remote call is skipped, `integrationValid` stays false, so the
    -- clearing branch (lines 102-107) is always taken
    (⟨false, 0⟩, clearAuth s, true)

/-! ## Login session poller (src/setting.ts `_getLoginStatus`, lines 294-345) -/

/-- Response shape of the remote `getLoginStatus` call. -/
structure LoginStatusResp where
  invalidSessionId : Bool
  status : Bool
  id : Option String
  name : Option String
  avatar : Option String
  token : Option String
deriving DecidableEq

/-- Outcome of one poll of the status endpoint: the call throws, or returns. -/
inductive PollTick where
  | throws : PollTick
  | ok : LoginStatusResp → PollTick

/-- Value the poller resolves with (`LoginStatus & \x7bqrCodeExpired?\x7d`;
an absent `qrCodeExpired` field is modelled as `false`). -/
structure LoginResult where
  qrCodeExpired : Bool
  invalidSessionId : Bool
  status : Bool
  id : Option String
  name : Option String
  avatar : Option String
  token : Option String
deriving DecidableEq

/-- The expiry resolution value (src/setting.ts lines 305-313 and 321-329). -/
def expiredResult : LoginResult :=
  ⟨true, true, false, none, none, none, none⟩

/-- One run of the poller's interval callback chain.  `ticks a` is the outcome
of the status poll performed on the tick where `attempts = a`.  `fuel` is the
number of remaining ticks before `attempts` reaches `maxAttempts = 60`
(i.e. `fuel = 60 - attempts`), used as the structural recursion measure;
`fuel = 0` is exactly the `attempts >= maxAttempts` guard.  Returns the
resolution value together with the number of status polls performed. -/
def getLoginStatusLoop (ticks : Nat → PollTick) :
    Nat → Nat → Nat → LoginResult × Nat
  | 0, _, polls => (expiredResult, polls)
  | fuel + 1, attempts, polls =>
    match ticks attempts with
    | .throws => getLoginStatusLoop ticks fuel (attempts + 1) (polls + 1)
    | .ok ls =>
      if ls.invalidSessionId then (expiredResult, polls + 1)
      else if ls.status && truthyOpt ls.token then
        (⟨false, ls.invalidSessionId, ls.status, ls.id, ls.name, ls.avatar,
          ls.token⟩, polls + 1)
      else getLoginStatusLoop ticks fuel (attempts + 1) (polls + 1)

/-- Embedding of `_getLoginStatus` (src/setting.ts lines 294-345):
`attempts` starts at 1 and `maxAttempts` is 60, so 59 ticks may poll before
the guard fires. -/
def getLoginStatus (ticks : Nat → PollTick) : LoginResult × Nat :=
  getLoginStatusLoop ticks 59 1 0

/-! ## Title sanitization (src/main.ts `_normalizeTitle`, lines 352-375)

Titles are modelled as `List Char` (JS strings viewed as sequences of code
points; none of the claims depends on UTF-16 surrogate splitting). -/

/-- Character class of the control-character regex `[\x00-\x1F\x7F-\x9F]`. -/
def isCtrlChar (c : Char) : Bool :=
  c.toNat ≤ 0x1F || (0x7F ≤ c.toNat && c.toNat ≤ 0x9F)

/-- The characters of the regex `[<>:"/\\|?*]` (illegal in Windows names). -/
def illegalChars : List Char := ['<', '>', ':', '"', '/', '\\', '|', '?', '*']

/-- Membership in `illegalChars`. -/
def isIllegalChar (c : Char) : Bool := decide (c ∈ illegalChars)

/-- Character class of the JS regex `\s` (also the set removed by
`String.prototype.trim`): tab, LF, VT, FF, CR, space, NBSP, Ogham space,
the U+2000-200A range, LS, PS, NNBSP, MMSP, ideographic space, BOM. -/
def isJsSpace (c : Char) : Bool :=
  c.toNat = 0x9 || c.toNat = 0xA || c.toNat = 0xB || c.toNat = 0xC ||
  c.toNat = 0xD || c.toNat = 0x20 || c.toNat = 0xA0 || c.toNat = 0x1680 ||
  (0x2000 ≤ c.toNat && c.toNat ≤ 0x200A) ||
  c.toNat = 0x2028 || c.toNat = 0x2029 || c.toNat = 0x202F ||
  c.toNat = 0x205F || c.toNat = 0x3000 || c.toNat = 0xFEFF

/-- Global replacement of `\s+` by a single space: `afterWs` records whether
the previous kept character came from a whitespace run still being absorbed. -/
def collapseWsAux : Bool → List Char → List Char
  | _, [] => []
  | afterWs, c :: cs =>
    if isJsSpace c then
      if afterWs then collapseWsAux true cs
      else ' ' :: collapseWsAux true cs
    else c :: collapseWsAux false cs

/-- The `.replace(/\s+/g, " ")` step. -/
def collapseWs (l : List Char) : List Char := collapseWsAux false l

/-- The `.trim()` step: drop leading and trailing JS whitespace. -/
def trimWs (l : List Char) : List Char :=
  ((l.dropWhile isJsSpace).reverse.dropWhile isJsSpace).reverse

/-- The fallback title `"暂无标题"` substituted for an empty result. -/
def placeholderTitle : List Char := ['暂', '无', '标', '题']

/-- The body of `_normalizeTitle` up to (but excluding) the final
`normalizePath` call: strip control characters, replace illegal characters
with `_`, collapse whitespace runs, trim, truncate to 100, substitute the
placeholder when empty (src/main.ts lines 353-372). -/
def sanitizeTitle (title : List Char) : List Char :=
  let s1 := title.filter (fun c => !isCtrlChar c)
  let s2 := s1.map (fun c => if isIllegalChar c then '_' else c)
  let s3 := trimWs (collapseWs s2)
  let s4 := if 100 < s3.length then s3.take 100 else s3
  if s4.length = 0 then placeholderTitle else s4

/-! ## Path normalization

Modelled from the spec: obsidian's `normalizePath` is an external collaborator
whose source is not part of this repository; §4.2 of the spec describes it as
"a path-normalization step (resolving `.`/`..` segments, unifying
separators)". -/

/-- Split a character list at `/` separators. -/
def splitSlash : List Char → List Char → List (List Char)
  | [], acc => [acc.reverse]
  | c :: cs, acc =>
    if c = '/' then acc.reverse :: splitSlash cs []
    else splitSlash cs (c :: acc)

/-- Resolve `.`/`..` path segments and drop empty ones, keeping a reversed
stack of retained segments in `acc`. -/
def resolveSegs : List (List Char) → List (List Char) → List (List Char)
  | [], acc => acc.reverse
  | s :: rest, acc =>
    if s = [] ∨ s = ['.'] then resolveSegs rest acc
    else if s = ['.', '.'] then resolveSegs rest acc.tail
    else resolveSegs rest (s :: acc)

/-- Join path segments with `/`. -/
def joinSlash : List (List Char) → List Char
  | [] => []
  | [s] => s
  | s :: t :: rest => s ++ '/' :: joinSlash (t :: rest)

/-- Modelled from the spec: obsidian's `normalizePath` — unify separators
(`\` becomes `/`), resolve `.`/`..` and empty segments, rejoin with `/`. -/
def normalizePath (l : List Char) : List Char :=
  joinSlash
    (resolveSegs (splitSlash (l.map (fun c => if c = '\\' then '/' else c)) [])
      [])

/-- `normalizePath` on `String`s. -/
def normalizePathStr (s : String) : String :=
  (normalizePath s.toList).asString

/-- Embedding of `_normalizeTitle` (src/main.ts lines 352-375): sanitize,
then pass through `normalizePath`. -/
def normalizeTitle (title : List Char) : List Char :=
  normalizePath (sanitizeTitle title)

/-- `normalizeTitle` on `String`s. -/
def normalizeTitleStr (s : String) : String :=
  (normalizeTitle s.toList).asString

/-! ## Path resolver (src/main.ts `_getFileName`, lines 377-388) -/

/-- The i-th candidate file name probed by `_getFileName`: `name.md` first,
then `name 1.md`, `name 2.md`, ... -/
def fileCandidate (name : String) (i : Nat) : String :=
  if i = 0 then name ++ ".md" else name ++ " " ++ toString i ++ ".md"

/-- Embedding of `_getFileName` (src/main.ts lines 377-388): probe candidates
in order and return the first one for which `adapter.exists` is false.  `ex`
is the store-existence oracle; `fuel` bounds the number of probes
(the source loop is unbounded), `none` meaning fuel ran out. -/
def getFileName (ex : String → Bool) (name : String) : Nat → Nat → Option String
  | 0, _ => none
  | fuel + 1, i =>
    let f := fileCandidate name i
    if ex f then getFileName ex name fuel (i + 1) else some f

/-! ## Note materializer (src/main.ts `_syncNote`, lines 239-350) -/

/-- The fields of the `getSyncContent` response destructured by `_syncNote`
(src/main.ts lines 262-272).  `properties`, `text` and `tagList` only feed
the external renderers, whose output is supplied by the environment, so they
are not carried here. -/
structure NoteContent where
  id : Option String
  title : String
  superType : String
  noteType : String
  relatedContentTitle : Option String
  relatedContentSuperType : Option String
deriving DecidableEq

-- Decidable equality for `Except`, used to evaluate concrete outcomes.
deriving instance DecidableEq for Except

/-- Return shape of `_syncNote`. -/
structure MaterializeResult where
  pluginEnable : Bool
  taskExist : Bool
  syncSuccess : Bool
deriving DecidableEq

/-- Environment of one `_syncNote` call: the settings fields it reads, the
outcomes of its remote calls and vault operations. -/
structure NoteEnv where
  /-- `settings.enable` read at line 248. -/
  enable : Bool
  rootDir : String
  richTextDir : String
  linkDir : String
  /-- Outcome of `getSyncContent(id, token)`; `Except.error` = the call throws. -/
  content : Except String NoteContent
  /-- The `adapter.exists` oracle consulted by `_getFileName`. -/
  fileExists : String → Bool
  /-- Outcome of `adapter.write`: `some e` = the write throws `e`. -/
  writeThrows : Option String
  /-- Whether the `syncSuccess` remote ack throws (swallowed at lines 331-335). -/
  ackSuccessThrows : Bool
  /-- Whether the `syncFailed` remote ack throws (swallowed at lines 343-347). -/
  ackFailThrows : Bool
  /-- The document text produced by the external renderers
  (`renderLinkProperty` / `renderRichTextProperty` / `renderText`). -/
  renderedText : String

/-- Observable outcome of one `_syncNote` call: the returned value or the
re-raised exception, the vault writes performed, the success acks attempted
(as `(id, token)`) and the failure acks attempted (as `(id, token, error)`).
An ack is recorded whether or not it itself throws (throwing acks are
swallowed by the source). -/
structure NoteRun where
  result : Except String MaterializeResult
  writes : List (String × String)
  successAcks : List (String × String)
  failAcks : List (String × String × String)
deriving DecidableEq

/-- The destination-selection step of `_syncNote` (src/main.ts
lines 282-316): the `SUPER_LINK` / `SUPER_RICH_TEXT` branches resolve a free
path via `_getFileName`; any other super-type leaves `fileName` at its
initial value `""`.  `none` = the `_getFileName` loop ran out of fuel. -/
def destFileName (env : NoteEnv) (c : NoteContent) (fuel : Nat) :
    Option String :=
  let nTitle := normalizeTitleStr c.title
  let nRoot := normalizePathStr env.rootDir
  let nLink := normalizePathStr env.linkDir
  let nRich := normalizePathStr env.richTextDir
  if c.superType = "SUPER_LINK" then
    getFileName env.fileExists (nRoot ++ "/" ++ nLink ++ "/" ++ nTitle) fuel 0
  else if c.superType = "SUPER_RICH_TEXT" then
    if (c.noteType = "HIGHLIGHT" ∨ c.noteType = "ANNOTATION") ∧
        truthyOpt c.relatedContentTitle = true ∧
        c.relatedContentSuperType = some "SUPER_LINK" then
      let nRel := normalizeTitleStr (c.relatedContentTitle.getD "")
      let relDir := normalizePathStr (nRoot ++ "/" ++ nLink ++ "/" ++ nRel)
      getFileName env.fileExists (relDir ++ "/" ++ nTitle) fuel 0
    else
      getFileName env.fileExists (nRoot ++ "/" ++ nRich ++ "/" ++ nTitle)
        fuel 0
  else
    -- neither super-type: `fileName` keeps its initial value `""`
    some ""

/-- Embedding of `_syncNote` (src/main.ts lines 239-350).  `fuel` bounds the
`_getFileName` probe loop; `none` means that loop ran out of fuel. -/
def syncNote (id token : String) (env : NoteEnv) (fuel : Nat) :
    Option NoteRun :=
  if env.enable = false then
    some ⟨.ok ⟨false, false, false⟩, [], [], []⟩
  else
    match env.content with
    | .error e =>
      -- the fetch throws; the catch at line 342 acks failure and re-raises
      some ⟨.error e, [], [], [(id, token, e)]⟩
    | .ok c =>
      if c.id = none then
        some ⟨.ok ⟨true, false, false⟩, [], [], []⟩
      else
        match destFileName env c fuel with
        | none => none
        | some fileName =>
          match env.writeThrows with
          | some e =>
            -- the write throws; ack failure (swallowed if it throws itself)
            -- and re-raise the original error
            some ⟨.error e, [], [], [(id, token, e)]⟩
          | none =>
            some ⟨.ok ⟨true, true, true⟩, [(fileName, env.renderedText)],
              [(id, token)], []⟩

/-! ## Sync orchestrator (src/main.ts `sync`, lines 115-211) -/

/-- Behavior of `_syncNote` for one item as seen by the orchestrator, apart
from the plugin-enabled flag (which the orchestrator environment supplies
separately, since `_syncNote` returns `pluginEnable=false` exactly when
`settings.enable` was false at its entry). -/
inductive ItemSpec where
  | throws : ItemSpec
  | ret : Bool → Bool → ItemSpec
deriving DecidableEq

/-- Observed outcome of one materialization attempt:
`ret pluginEnable taskExist syncSuccess` or a thrown exception. -/
inductive ItemObs where
  | thrown : ItemObs
  | ret : Bool → Bool → Bool → ItemObs
deriving DecidableEq

/-- Response shape of the remote `getSyncTask` call. -/
structure SyncPage where
  valid : Bool
  limit : Nat
  result : List String
deriving DecidableEq

/-- Environment of one `sync` run.  `settings.enable` can be flipped
externally (plugin unload) while the run is in flight, so its successive
reads are modelled as an oracle over a read counter: `enable k` is the value
returned by the k-th read (the loop-top read at line 142 and the read at the
entry of each `_syncNote` call).  `pages n` is the outcome of the n-th
`getSyncTask` call (`Except.error` = it throws), and `items p j` the
behavior of `_syncNote` on item `j` of page `p` when the plugin is enabled. -/
structure SyncEnv where
  enable : Nat → Bool
  pages : Nat → Except String SyncPage
  items : Nat → Nat → ItemSpec

/-- The inner for-loop of `sync` over one page (src/main.ts lines 161-188).
Arguments: remaining item ids, index `j` of the next item, enable-read
counter `k`.  Returns the final read counter and the list of observed
outcomes, `obs[j]` being the outcome of item `j` (items past an early
`break` do not appear). -/
def pageLoop (env : SyncEnv) (p : Nat) :
    List String → Nat → Nat → Nat × List ItemObs
  | [], _, k => (k, [])
  | _ :: rest, j, k =>
    if env.enable k = true then
      match env.items p j with
      | .throws =>
        -- catch at line 183: count the failure and continue with the next item
        ((pageLoop env p rest (j + 1) (k + 1)).1,
          .thrown :: (pageLoop env p rest (j + 1) (k + 1)).2)
      | .ret te ss =>
        if te = false then (k + 1, [.ret true false ss])
        else if ss = true then
          ((pageLoop env p rest (j + 1) (k + 1)).1,
            .ret true true true :: (pageLoop env p rest (j + 1) (k + 1)).2)
        else (k + 1, [.ret true true false])
    else
      -- `_syncNote` returns `pluginEnable=false`; the loop breaks at line 169
      (k + 1, [.ret false false false])

/-- The pagination while-loop of `sync` (src/main.ts lines 141-191).
Arguments: fuel, page index `p`, enable-read counter `k`.  Returns
`(fetches, finalCounter, perPageOutcomes, caught)` where `fetches` counts the
`getSyncTask` calls made, `perPageOutcomes[q]` is the outcome list of page
`p+q` (only pages whose item loop was entered contribute), and `caught` is
true when a `getSyncTask` throw escapes to the outer catch.  `none` = fuel
ran out before the loop terminated. -/
def syncLoop (env : SyncEnv) :
    Nat → Nat → Nat → Option (Nat × Nat × List (List ItemObs) × Bool)
  | 0, _, _ => none
  | fuel + 1, p, k =>
    if env.enable k = true then
      match env.pages p with
      | .error _ => some (1, k + 1, [], true)
      | .ok page =>
        if page.valid = false then some (1, k + 1, [], false)
        else if page.result.length = 0 then some (1, k + 1, [], false)
        else
          if page.result.length = page.limit then
            match syncLoop env fuel (p + 1)
                (pageLoop env p page.result 0 (k + 1)).1 with
            | none => none
            | some (f, k2, rest, c) =>
              some (f + 1, k2, (pageLoop env p page.result 0 (k + 1)).2 :: rest, c)
          else
            some (1, (pageLoop env p page.result 0 (k + 1)).1,
              [(pageLoop env p page.result 0 (k + 1)).2], false)
    else some (0, k + 1, [], false)

/-- JS falsiness of the `token` guard `if (!token)` at line 118. -/
def tokenFalsy (t : Option String) : Bool := !truthyOpt t

/-- Observable outcome of one `sync` invocation. -/
structure RunResult where
  /-- Number of `getSyncTask` calls performed. -/
  fetches : Nat
  /-- Per-page materialization outcomes, `attempted[p][j]` the outcome of
  item `j` of page `p`. -/
  attempted : List (List ItemObs)
  /-- Whether the outer catch at line 204 caught an exception. -/
  outerCaught : Bool
  /-- The settings when `sync` returns. -/
  settings : Settings
  /-- The settings values at each `saveSettings` call, in order. -/
  saves : List Settings
deriving DecidableEq

/-- Embedding of `sync` (src/main.ts lines 115-211): entry guard (no token /
already syncing), set and persist the in-progress flag, run the pagination
loop, then the exit bookkeeping (last-sync timestamp, clear the flag,
persist), which also runs when the outer catch fires.  The early-return
paths at lines 119 and 123 skip the bookkeeping (they return from inside the
try with no finally).  `now` is the timestamp taken at line 208.  `none` =
the pagination loop ran out of fuel. -/
def sync (env : SyncEnv) (s : Settings) (now : Nat) (fuel : Nat) :
    Option RunResult :=
  if tokenFalsy s.token = true then some ⟨0, [], false, s, []⟩
  else if s.syncing = true then some ⟨0, [], false, s, []⟩
  else
    let s1 : Settings := { s with syncing := true }
    match syncLoop env fuel 0 0 with
    | none => none
    | some (f, _, obs, caught) =>
      let s2 : Settings :=
        { s1 with lastSyncTime := some now, syncing := false }
      some ⟨f, obs, caught, s2, [s1, s2]⟩

/-! ## Concrete instances used to evaluate the model -/

/-- Whether a fallible remote call threw. -/
def exceptThrew {α β : Type} : Except α β → Bool
  | .error _ => true
  | .ok _ => false

/-- Whether one poll tick is "pending": it neither reports the session id as
invalid nor reports approval (a thrown tick counts as pending, matching the
swallowing catch at src/setting.ts lines 337-339). -/
def tickPending : PollTick → Bool
  | .throws => true
  | .ok ls => !ls.invalidSessionId && !(ls.status && truthyOpt ls.token)

/-- A status oracle that never approves and never invalidates. -/
def pendingTicks : Nat → PollTick :=
  fun _ => .ok ⟨false, false, none, none, none, none⟩

/-- A logged-in settings state (valid-looking credential and session). -/
def sCx : Settings :=
  ⟨some "t", some ("u", "n"), some "sid", false, "新枝", "笔记", "文章", 60,
    none, true⟩

/-- A settings state ready to sync: credential present, not syncing. -/
def sPre : Settings :=
  ⟨some "t", none, none, false, "新枝", "笔记", "文章", 60, none, true⟩

/-- `sPre` with a run already in progress. -/
def sInProgress : Settings := { sPre with syncing := true }

/-- A logged-out settings state (no credential). -/
def sLoggedOut : Settings :=
  ⟨none, none, none, false, "新枝", "笔记", "文章", 60, none, true⟩

/-- Sync environment where the first item of a full first page reports
`taskExist=false` and the second page is empty. -/
def envC1 : SyncEnv :=
  ⟨fun _ => true,
    fun n => if n = 0 then .ok ⟨true, 2, ["a", "b"]⟩ else .ok ⟨true, 2, []⟩,
    fun p j => if p = 0 ∧ j = 0 then .ret false false else .ret true true⟩

/-- The run `sync envC1 sPre 1 5` evaluates to. -/
def rC1 : RunResult :=
  ⟨2, [[.ret true false false]], false, { sPre with lastSyncTime := some 1 },
    [{ sPre with syncing := true }, { sPre with lastSyncTime := some 1 }]⟩

/-- Sync environment where the plugin is disabled after two reads of
`settings.enable` (i.e. between the first and the second item of page 0). -/
def envC1pe : SyncEnv :=
  ⟨fun k => decide (k < 2),
    fun n => if n = 0 then .ok ⟨true, 2, ["a", "b"]⟩ else .ok ⟨true, 2, []⟩,
    fun _ _ => .ret true true⟩

/-- The run `sync envC1pe sPre 1 5` evaluates to. -/
def rC1pe : RunResult :=
  ⟨1, [[.ret true true true, .ret false false false]], false,
    { sPre with lastSyncTime := some 1 },
    [{ sPre with syncing := true }, { sPre with lastSyncTime := some 1 }]⟩

/-- Sync environment returning two full pages (size = limit = 2) and then a
short page (size 1 < limit), every materialization succeeding. -/
def envC6 : SyncEnv :=
  ⟨fun _ => true,
    fun n => if n ≤ 1 then .ok ⟨true, 2, ["a", "b"]⟩ else .ok ⟨true, 2, ["c"]⟩,
    fun _ _ => .ret true true⟩

/-- The pages served by `envC6`. -/
def pagesC6 : Nat → SyncPage :=
  fun n => if n ≤ 1 then ⟨true, 2, ["a", "b"]⟩ else ⟨true, 2, ["c"]⟩

/-- Sync environment whose page fetch always throws. -/
def envThrow : SyncEnv :=
  ⟨fun _ => true, fun _ => .error "boom", fun _ _ => .ret true true⟩

/-- The run `sync envThrow sPre 7 5` evaluates to. -/
def rThrow : RunResult :=
  ⟨1, [], true, { sPre with lastSyncTime := some 7 },
    [{ sPre with syncing := true }, { sPre with lastSyncTime := some 7 }]⟩

/-- A fetched note whose super-type is neither `SUPER_LINK` nor
`SUPER_RICH_TEXT`. -/
def cOther : NoteContent := ⟨some "n1", "T", "OTHER", "NOTE", none, none⟩

/-- Materializer environment delivering `cOther` with a succeeding write. -/
def envNoteOther : NoteEnv :=
  ⟨true, "新枝", "笔记", "文章", .ok cOther, fun _ => false, none, false,
    false, "body"⟩

/-- A fetched `SUPER_LINK` note. -/
def cLink : NoteContent := ⟨some "n1", "T", "SUPER_LINK", "NOTE", none, none⟩

/-- Materializer environment where the vault write throws `"boom"` and the
failure ack itself also throws. -/
def envNoteFail : NoteEnv :=
  ⟨true, "新枝", "笔记", "文章", .ok cLink, fun _ => false, some "boom",
    false, true, "body"⟩

/-- The outcome `syncNote "n1" "tok" envNoteFail 1` evaluates to. -/
def rNoteFail : NoteRun :=
  ⟨.error "boom", [], [], [("n1", "tok", "boom")]⟩

/-! ## C2: Account Validator clearing behavior -/

/-- C2, counterexample.  With a structurally valid, unexpired credential and
a session id present, a thrown remote integration-check makes `checkAccount`
return `valid = false` while leaving the credential in settings untouched and
performing no persist — contradicting the claim that the combined validity
being false always clears credential, user identity and session id and
persists the change. -/
theorem checkAccount_remote_error_no_clear_cex :
    (checkAccount (fun _ => some 10) 0 (.error "network") sCx).1.valid =
      false ∧
    (checkAccount (fun _ => some 10) 0 (.error "network") sCx).2.1 = sCx ∧
    sCx.token = some "t" ∧ sCx.user ≠ none ∧ sCx.sessionId = some "sid" ∧
    (checkAccount (fun _ => some 10) 0 (.error "network") sCx).2.2 = false :=
  by decide

/-- C2, amended: whenever `checkAccount` reports `valid = false`, it either
clears the credential, user identity and session id and persists the change,
or the remote integration-check threw, in which case it returns
`{valid := false, failedTaskCount := 0}` with settings untouched and no
persist (src/main.ts lines 94-99 return from inside the catch before the
clearing block at lines 102-107 is reached). -/
theorem checkAccount_invalid_clears (decode : String → Option Nat) (now : Nat)
    (integ : Except String IntegrationResp) (s : Settings)
    (h : (checkAccount decode now integ s).1.valid = false) :
    ((checkAccount decode now integ s).2.1 = clearAuth s ∧
      (checkAccount decode now integ s).2.2 = true) ∨
    (exceptThrew integ = true ∧
      (checkAccount decode now integ s).2.1 = s ∧
      (checkAccount decode now integ s).2.2 = false ∧
      (checkAccount decode now integ s).1 = ⟨false, 0⟩) := by
  by_cases hc : (((checkToken decode now s.token).1 &&
      (checkToken decode now s.token).2) && truthyOpt s.token &&
      truthyOpt s.sessionId) = true
  · cases integ with
    | error e =>
      right
      simp only [checkAccount, hc, if_true, exceptThrew]
      refine ⟨?_, ?_, ?_, ?_⟩ <;> trivial
    | ok ir =>
      simp only [checkAccount, hc, if_true] at h ⊢
      by_cases hv : (!((checkToken decode now s.token).1 &&
          (checkToken decode now s.token).2) || !ir.valid) = true
      · left
        simp only [hv, if_true]
        refine ⟨?_, ?_⟩ <;> trivial
      · exfalso
        rw [if_neg hv] at h
        have hv2 := Bool.eq_false_iff.mpr hv
        simp only [Bool.or_eq_false_iff] at hv2
        obtain ⟨h1, h2⟩ := hv2
        simp only [Bool.not_eq_false'] at h1 h2
        simp [h1, h2] at h
  · left
    simp only [checkAccount, hc, if_false]
    refine ⟨?_, ?_⟩ <;> trivial

/-- C2, witness: `checkAccount_invalid_clears` applied to a logged-out state
(clearing branch taken). -/
theorem checkAccount_invalid_clears_witness :
    ((checkAccount (fun _ => none) 0 (.ok ⟨true, 0⟩) sLoggedOut).2.1 =
        clearAuth sLoggedOut ∧
      (checkAccount (fun _ => none) 0 (.ok ⟨true, 0⟩) sLoggedOut).2.2 =
        true) ∨
    (exceptThrew (Except.ok (⟨true, 0⟩ : IntegrationResp) :
        Except String IntegrationResp) = true ∧
      (checkAccount (fun _ => none) 0 (.ok ⟨true, 0⟩) sLoggedOut).2.1 =
        sLoggedOut ∧
      (checkAccount (fun _ => none) 0 (.ok ⟨true, 0⟩) sLoggedOut).2.2 =
        false ∧
      (checkAccount (fun _ => none) 0 (.ok ⟨true, 0⟩) sLoggedOut).1 =
        ⟨false, 0⟩) :=
  checkAccount_invalid_clears (fun _ => none) 0 (.ok ⟨true, 0⟩) sLoggedOut
    (by decide)

/-! ## C3: Login poller attempt budget -/

/-- Helper: when every tick in the remaining window is pending, the poller
loop exhausts its window and resolves expired, having polled once per
remaining tick. -/
theorem getLoginStatusLoop_pending (ticks : Nat → PollTick) :
    ∀ fuel attempts polls,
      (∀ a, a < attempts + fuel → attempts ≤ a → tickPending (ticks a) = true) →
      getLoginStatusLoop ticks fuel attempts polls =
        (expiredResult, polls + fuel) := by
  intro fuel
  induction fuel with
  | zero => intro attempts polls _; rfl
  | succ n ih =>
    intro attempts polls h
    have hp : tickPending (ticks attempts) = true :=
      h attempts (by omega) (by omega)
    have hrest : ∀ a, a < (attempts + 1) + n → attempts + 1 ≤ a →
        tickPending (ticks a) = true := by
      intro a h1 h2
      exact h a (by omega) (by omega)
    have hrec := ih (attempts + 1) (polls + 1) hrest
    rw [getLoginStatusLoop]
    cases hT : ticks attempts with
    | throws =>
      have hn : polls + 1 + n = polls + (n + 1) := by omega
      rw [hrec, hn]
    | ok ls =>
      rw [hT] at hp
      simp only [tickPending, Bool.and_eq_true, Bool.not_eq_true'] at hp
      have hn : polls + 1 + n = polls + (n + 1) := by omega
      simp only [hp.1, hp.2, hrec, hn]
      simp

/-- C3, counterexample.  With a status endpoint that never approves and never
invalidates, the poller resolves expired but has performed 59 status polls,
not the 60 the claim asserts ("a status poll on each of those 60 ticks"):
`attempts` starts at 1 and the tick where `attempts = maxAttempts = 60`
resolves expired before polling (src/setting.ts lines 298-315). -/
theorem getLoginStatus_polls_cex :
    (getLoginStatus pendingTicks).2 = 59 ∧
    (getLoginStatus pendingTicks).1 = expiredResult ∧ (59 : Nat) ≠ 60 := by
  refine ⟨by decide, by decide, by decide⟩

/-- C3, amended: in every run in which the first 59 status ticks neither
report approval nor report the session id as invalid (remote errors counting
toward the budget like any other tick), the poller resolves to `Expired` with
`qrCodeExpired = true` on its 60th tick, having performed a status poll on
each of the first 59 ticks; the 60th tick hits the exhausted attempt budget
and resolves without polling. -/
theorem getLoginStatus_expired_after_budget (ticks : Nat → PollTick)
    (h : ∀ a, a ≤ 59 → 1 ≤ a → tickPending (ticks a) = true) :
    getLoginStatus ticks = (expiredResult, 59) ∧
    expiredResult.qrCodeExpired = true := by
  refine ⟨?_, by decide⟩
  rw [getLoginStatus, getLoginStatusLoop_pending ticks 59 1 0 ?_]
  intro a h1 h2
  exact h a (by omega) h2

/-- C3, witness: `getLoginStatus_expired_after_budget` at the all-pending
status oracle. -/
theorem getLoginStatus_expired_after_budget_witness :
    getLoginStatus pendingTicks = (expiredResult, 59) ∧
    expiredResult.qrCodeExpired = true :=
  getLoginStatus_expired_after_budget pendingTicks (by decide)

/-! ## C4: Path resolver collision avoidance -/

/-- Helper: the probe loop returns the first free candidate, counting from
any start index at or below it. -/
theorem getFileName_from (ex : String → Bool) (name : String) (N : Nat)
    (hlt : ∀ j, j < N → ex (fileCandidate name j) = true)
    (hN : ex (fileCandidate name N) = false) :
    ∀ fuel i, i ≤ N → N - i < fuel →
      getFileName ex name fuel i = some (fileCandidate name N) := by
  intro fuel
  induction fuel with
  | zero => intro i _ h2; omega
  | succ n ih =>
    intro i h1 h2
    rw [getFileName]
    by_cases hi : i = N
    · subst hi
      simp [hN]
    · have hlt2 : i < N := by omega
      simp only [hlt i hlt2, if_true]
      exact ih (i + 1) (by omega) (by omega)

/-- C4, counterexample.  With no colliding file at all (the claim's `N = 0`
case), `_getFileName` returns `name.md`, not `name 0.md` as the claim's
schema `name N.md` dictates at `N = 0`. -/
theorem getFileName_zero_collision_cex :
    getFileName (fun _ => false) "a" 1 0 = some "a.md" ∧
    ("a.md" : String) ≠ "a 0.md" := by
  refine ⟨by decide, by decide⟩

/-- C4, amended: whenever exactly the candidates `name.md`,
`name 1.md`, ..., `name N-1.md` exist, the resolver returns the first free
candidate, which does not exist in the store at call time; for `N ≥ 1` that
is `name N.md`, while for `N = 0` it is `name.md` (no numeric suffix).
`fuel` bounds the probe loop of the embedding; `N < fuel` suffices. -/
theorem getFileName_resolves_collision (ex : String → Bool) (name : String)
    (N fuel : Nat)
    (hlt : ∀ j, j < N → ex (fileCandidate name j) = true)
    (hN : ex (fileCandidate name N) = false)
    (hfuel : N < fuel) :
    getFileName ex name fuel 0 = some (fileCandidate name N) ∧
    ex (fileCandidate name N) = false ∧
    (1 ≤ N → fileCandidate name N = name ++ " " ++ toString N ++ ".md") ∧
    (N = 0 → fileCandidate name N = name ++ ".md") := by
  refine ⟨getFileName_from ex name N hlt hN fuel 0 (by omega) (by omega),
    hN, ?_, ?_⟩
  · intro h
    rw [fileCandidate, if_neg (by omega)]
  · intro h
    subst h
    rfl

/-- C4, witness: `getFileName_resolves_collision` with the two colliding
files `b.md` and `b 1.md` present (`N = 2`), resolving to `b 2.md`. -/
theorem getFileName_resolves_collision_witness :
    getFileName (fun f => f == "b.md" || f == "b 1.md") "b" 3 0 =
      some (fileCandidate "b" 2) ∧
    (fun f => f == "b.md" || f == "b 1.md") (fileCandidate "b" 2) = false ∧
    (1 ≤ 2 → fileCandidate "b" 2 = "b" ++ " " ++ toString 2 ++ ".md") ∧
    (2 = 0 → fileCandidate "b" 2 = "b" ++ ".md") :=
  getFileName_resolves_collision (fun f => f == "b.md" || f == "b 1.md") "b"
    2 3 (by decide) (by decide) (by decide)

/-! ## C7: Sync entry guard -/

/-- C7, confirmed: when no credential is present (falsy token) or the
in-progress flag is already set, invoking `sync` returns normally with no
page fetch, no materialization attempt, no settings mutation and no persist
(src/main.ts lines 117-124; the early `return` inside the `try` block skips
the exit bookkeeping at lines 208-210).  The in-progress flag is read and set
before any remote call in the embedding of `sync`, so two overlapping runs
are impossible: the later one hits this guard. -/
theorem sync_entry_guard_noop (env : SyncEnv) (s : Settings) (now fuel : Nat)
    (h : tokenFalsy s.token = true ∨ s.syncing = true) :
    sync env s now fuel = some ⟨0, [], false, s, []⟩ := by
  rcases h with h | h
  · rw [sync, if_pos h]
  · rw [sync]
    by_cases ht : tokenFalsy s.token = true
    · rw [if_pos ht]
    · rw [if_neg ht, if_pos h]

/-- C7, witness: `sync_entry_guard_noop` on a state whose run is already in
progress, under an environment whose remote would throw if consulted. -/
theorem sync_entry_guard_noop_witness :
    sync envThrow sInProgress 0 5 = some ⟨0, [], false, sInProgress, []⟩ :=
  sync_entry_guard_noop envThrow sInProgress 0 5 (Or.inr (by decide))

/-! ## C9: Sync exit bookkeeping -/

/-- C9, confirmed: every `sync` run that passes the entry guard — including
runs in which the page fetch throws (outer catch fires, `outerCaught`) —
returns normally (the embedding's total return type is how the caught
exception is modelled: nothing propagates), with the in-progress flag
cleared, the last-sync timestamp set to the current time, and the final
settings persisted by the last `saveSettings` call (src/main.ts
lines 204-210). -/
theorem sync_exit_bookkeeping (env : SyncEnv) (s : Settings) (now fuel : Nat)
    (r : RunResult)
    (htok : tokenFalsy s.token = false) (hsync : s.syncing = false)
    (hr : sync env s now fuel = some r) :
    r.settings.syncing = false ∧ r.settings.lastSyncTime = some now ∧
    r.saves.getLast? = some r.settings := by
  rw [sync] at hr
  rw [if_neg (by simp [htok]), if_neg (by simp [hsync])] at hr
  rcases hE : syncLoop env fuel 0 0 with _ | ⟨f, k, obs, c⟩
  · rw [hE] at hr
    exact absurd hr (by simp)
  · rw [hE] at hr
    simp only [Option.some_inj] at hr
    subst hr
    refine ⟨rfl, rfl, rfl⟩

/-- C9, witness: `sync_exit_bookkeeping` on a run whose page fetch throws. -/
theorem sync_exit_bookkeeping_witness :
    rThrow.settings.syncing = false ∧
    rThrow.settings.lastSyncTime = some 7 ∧
    rThrow.saves.getLast? = some rThrow.settings :=
  sync_exit_bookkeeping envThrow sPre 7 5 rThrow (by decide) (by decide)
    (by decide)

/-! ## C8: Materializer failure acknowledgment -/

/-- Helper: `_syncNote` never reads whether the failure ack itself throws
(the source swallows it at lines 343-347), so its outcome is unchanged when
that flag flips. -/
theorem syncNote_ackFail_irrel (id token : String) (env : NoteEnv) (b : Bool)
    (fuel : Nat) :
    syncNote id token { env with ackFailThrows := b } fuel =
      syncNote id token env fuel := by
  cases env
  rfl

/-- C8, confirmed: if the materializer raises after the task's existence was
confirmed (content fetched, non-null id), it records exactly one remote
failure acknowledgment carrying the task id, the credential and the error
description, and the raised error is the original one; flipping whether the
acknowledgment itself throws changes nothing observable (the secondary
failure is swallowed). -/
theorem syncNote_failure_ack (id token : String) (env : NoteEnv)
    (c : NoteContent) (fuel : Nat) (r : NoteRun) (e : String)
    (hc : env.content = Except.ok c) (hid : c.id ≠ none)
    (hr : syncNote id token env fuel = some r)
    (he : r.result = Except.error e) :
    r.failAcks = [(id, token, e)] ∧
    syncNote id token { env with ackFailThrows := !env.ackFailThrows } fuel =
      some r := by
  refine ⟨?_, (syncNote_ackFail_irrel id token env _ fuel).trans hr⟩
  by_cases hen : env.enable = false
  · rw [syncNote, if_pos hen] at hr
    simp only [Option.some_inj] at hr
    subst hr
    simp at he
  · simp [syncNote, hen, hc, hid] at hr
    rcases hF : destFileName env c fuel with _ | fn
    · rw [hF] at hr
      simp at hr
    · rw [hF] at hr
      rcases hw : env.writeThrows with _ | e0
      · rw [hw] at hr
        simp only [Option.some_inj] at hr
        subst hr
        simp at he
      · rw [hw] at hr
        simp only [Option.some_inj] at hr
        subst hr
        simp only at he
        rw [Except.error.injEq] at he
        subst he
        rfl

/-- C8, witness: `syncNote_failure_ack` on a run whose vault write throws
`"boom"` while the failure ack also throws. -/
theorem syncNote_failure_ack_witness :
    rNoteFail.failAcks = [("n1", "tok", "boom")] ∧
    syncNote "n1" "tok"
        { envNoteFail with ackFailThrows := !envNoteFail.ackFailThrows } 1 =
      some rNoteFail :=
  syncNote_failure_ack "n1" "tok" envNoteFail cLink 1 rNoteFail "boom"
    (by decide) (by decide) (by decide) (by decide)

/-! ## C10: Unknown super-type writes to the empty path -/

/-- C10, confirmed: for a fetched note whose super-type is neither
`SUPER_LINK` nor `SUPER_RICH_TEXT`, destination selection assigns no path —
`fileName` keeps its initial value `""` — and the document write is performed
against the empty path (src/main.ts line 289 and line 329). -/
theorem syncNote_unknown_supertype_empty_path (id token : String)
    (env : NoteEnv) (c : NoteContent) (fuel : Nat)
    (hen : env.enable = true) (hc : env.content = Except.ok c)
    (hid : c.id ≠ none)
    (h1 : c.superType ≠ "SUPER_LINK") (h2 : c.superType ≠ "SUPER_RICH_TEXT")
    (hw : env.writeThrows = none) :
    destFileName env c fuel = some "" ∧
    syncNote id token env fuel =
      some ⟨.ok ⟨true, true, true⟩, [("", env.renderedText)],
        [(id, token)], []⟩ := by
  have hF : destFileName env c fuel = some "" := by
    rw [destFileName, if_neg h1, if_neg h2]
  refine ⟨hF, ?_⟩
  rw [syncNote, if_neg (by simp [hen]), hc]
  simp only [if_neg hid, hF, hw]

/-- C10, witness: `syncNote_unknown_supertype_empty_path` on a note of
super-type `"OTHER"`. -/
theorem syncNote_unknown_supertype_empty_path_witness :
    destFileName envNoteOther cOther 1 = some "" ∧
    syncNote "n1" "tok" envNoteOther 1 =
      some ⟨.ok ⟨true, true, true⟩, [("", envNoteOther.renderedText)],
        [("n1", "tok")], []⟩ :=
  syncNote_unknown_supertype_empty_path "n1" "tok" envNoteOther cOther 1
    (by decide) (by decide) (by decide) (by decide) (by decide) (by decide)

/-! ## C6: Pagination continues exactly on full pages -/

/-- Helper: with the plugin enabled throughout and pages `p .. p+d-1` full
(size = limit, nonempty) and valid, while page `p+d` is terminal (short or
empty) and valid, the pagination loop performs exactly `d + 1` fetches. -/
theorem syncLoop_full_pages (env : SyncEnv) (P : Nat → SyncPage)
    (hen : ∀ k, env.enable k = true) :
    ∀ d p k fuel,
      d < fuel →
      (∀ m, p ≤ m → m ≤ p + d → env.pages m = .ok (P m)) →
      (∀ m, p ≤ m → m ≤ p + d → (P m).valid = true) →
      (∀ m, p ≤ m → m < p + d →
        (P m).result.length = (P m).limit ∧ (P m).result.length ≠ 0) →
      ((P (p + d)).result.length ≠ (P (p + d)).limit ∨
        (P (p + d)).result.length = 0) →
      ∃ k2 obs, syncLoop env fuel p k = some (d + 1, k2, obs, false) := by
  intro d
  induction d with
  | zero =>
    intro p k fuel hfuel hP hval hfull hlast
    rcases fuel with _ | f
    · omega
    rw [syncLoop, if_pos (hen k), hP p (by omega) (by omega)]
    simp only
    rw [if_neg (by simp [hval p (by omega) (by omega)])]
    by_cases hz : (P p).result.length = 0
    · rw [if_pos hz]
      exact ⟨k + 1, [], rfl⟩
    · rw [if_neg hz]
      have hne : (P p).result.length ≠ (P p).limit := by
        rcases hlast with h | h
        · simpa using h
        · exact absurd (by simpa using h) hz
      rw [if_neg hne]
      exact ⟨(pageLoop env p (P p).result 0 (k + 1)).1,
        [(pageLoop env p (P p).result 0 (k + 1)).2], rfl⟩
  | succ d ih =>
    intro p k fuel hfuel hP hval hfull hlast
    rcases fuel with _ | f
    · omega
    rw [syncLoop, if_pos (hen k), hP p (by omega) (by omega)]
    simp only
    rw [if_neg (by simp [hval p (by omega) (by omega)])]
    have hfp := hfull p (by omega) (by omega)
    rw [if_neg hfp.2, if_pos hfp.1]
    have hrec := ih (p + 1) (pageLoop env p (P p).result 0 (k + 1)).1 f
      (by omega)
      (fun m h1 h2 => hP m (by omega) (by omega))
      (fun m h1 h2 => hval m (by omega) (by omega))
      (fun m h1 h2 => hfull m (by omega) (by omega))
      (by
        have : p + 1 + d = p + (d + 1) := by omega
        rw [this]
        exact hlast)
    obtain ⟨k2, obs, hobs⟩ := hrec
    rw [hobs]
    exact ⟨k2, (pageLoop env p (P p).result 0 (k + 1)).2 :: obs, rfl⟩

/-- C6, confirmed: in a run that passes the entry guard and is not otherwise
aborted (plugin stays enabled, every page valid), the pagination loop
continues exactly while fetched pages are full (size = limit and nonempty):
with pages `0 .. n-1` full and page `n` short or empty, exactly `n + 1`
fetches occur.  In particular two full pages followed by a short one yield
exactly three fetches, and a single short (or empty) page yields exactly
one. -/
theorem sync_pagination_count (env : SyncEnv) (s : Settings)
    (now fuel n : Nat) (P : Nat → SyncPage)
    (hen : ∀ k, env.enable k = true)
    (htok : tokenFalsy s.token = false) (hsync : s.syncing = false)
    (hP : ∀ m, m ≤ n → env.pages m = .ok (P m))
    (hval : ∀ m, m ≤ n → (P m).valid = true)
    (hfull : ∀ m, m < n →
      (P m).result.length = (P m).limit ∧ (P m).result.length ≠ 0)
    (hlast : (P n).result.length ≠ (P n).limit ∨ (P n).result.length = 0)
    (hfuel : n < fuel) :
    (sync env s now fuel).map RunResult.fetches = some (n + 1) := by
  obtain ⟨k2, obs, hobs⟩ := syncLoop_full_pages env P hen n 0 0 fuel hfuel
    (fun m h1 h2 => hP m (by omega)) (fun m h1 h2 => hval m (by omega))
    (fun m h1 h2 => hfull m (by omega)) (by simpa using hlast)
  rw [sync, if_neg (by simp [htok]), if_neg (by simp [hsync]), hobs]
  rfl

/-- C6, witness: `sync_pagination_count` on `envC6` (two full pages of
size 2 = limit, then a page of size 1 < limit): exactly three fetches. -/
theorem sync_pagination_count_witness :
    (sync envC6 sPre 1 9).map RunResult.fetches = some (2 + 1) :=
  sync_pagination_count envC6 sPre 1 9 2 pagesC6 (fun _ => rfl) (by decide)
    (by decide) (by decide) (by decide) (by decide) (by decide) (by decide)

/-! ## C1: Early stop inside a page vs. the pagination loop -/

/-- Helper: within one page's outcome list, any returned triple with
`pluginEnable = false`, `taskExist = false` or `syncSuccess = false` is the
last outcome recorded — the for-loop breaks there. -/
theorem pageLoop_stop_last (env : SyncEnv) (p : Nat) :
    ∀ ids j k i pe te ss,
      (pageLoop env p ids j k).2.get? i = some (.ret pe te ss) →
      (pe = false ∨ te = false ∨ ss = false) →
      (pageLoop env p ids j k).2.length = i + 1 := by
  intro ids
  induction ids with
  | nil =>
    intro j k i pe te ss h1 _
    simp [pageLoop] at h1
  | cons a rest ih =>
    intro j k i pe te ss h1 h2
    rw [pageLoop] at h1 ⊢
    by_cases hk : env.enable k = true
    · rw [if_pos hk] at h1 ⊢
      cases hI : env.items p j with
      | throws =>
        simp only [hI] at h1 ⊢
        cases i with
        | zero => simp at h1
        | succ i =>
          simp only [List.get?_cons_succ] at h1
          simp only [List.length_cons, ih (j + 1) (k + 1) i pe te ss h1 h2]
      | ret te2 ss2 =>
        simp only [hI] at h1 ⊢
        cases te2 with
        | false =>
          simp only [if_pos rfl] at h1 ⊢
          cases i with
          | zero => simp
          | succ i => simp at h1
        | true =>
          rw [if_neg (by simp)] at h1 ⊢
          cases ss2 with
          | false =>
            rw [if_neg (by simp)] at h1 ⊢
            cases i with
            | zero => simp
            | succ i => simp at h1
          | true =>
            rw [if_pos rfl] at h1 ⊢
            cases i with
            | zero =>
              simp only [List.get?_cons_zero, Option.some_inj] at h1
              rcases h2 with h2 | h2 | h2 <;>
                simp [ItemObs.ret.injEq] at h1 <;> simp [h1.1, h1.2.1, h1.2.2] at h2
            | succ i =>
              simp only [List.get?_cons_succ] at h1
              simp only [List.length_cons, ih (j + 1) (k + 1) i pe te ss h1 h2]
    · rw [if_neg hk] at h1 ⊢
      cases i with
      | zero => simp
      | succ i => simp at h1

/-- Helper: a `pluginEnable = false` outcome within a page means some
`settings.enable` read below the page's final read counter returned false. -/
theorem pageLoop_pe_false (env : SyncEnv) (p : Nat) :
    ∀ ids j k i te ss,
      (pageLoop env p ids j k).2.get? i = some (.ret false te ss) →
      ∃ m, m < (pageLoop env p ids j k).1 ∧ env.enable m = false := by
  intro ids
  induction ids with
  | nil =>
    intro j k i te ss h1
    simp [pageLoop] at h1
  | cons a rest ih =>
    intro j k i te ss h1
    rw [pageLoop] at h1 ⊢
    by_cases hk : env.enable k = true
    · rw [if_pos hk] at h1 ⊢
      cases hI : env.items p j with
      | throws =>
        simp only [hI] at h1 ⊢
        cases i with
        | zero => simp at h1
        | succ i =>
          simp only [List.get?_cons_succ] at h1
          exact ih (j + 1) (k + 1) i te ss h1
      | ret te2 ss2 =>
        simp only [hI] at h1 ⊢
        cases te2 with
        | false =>
          simp only [if_pos rfl] at h1
          cases i with
          | zero => simp [ItemObs.ret.injEq] at h1
          | succ i => simp at h1
        | true =>
          rw [if_neg (by simp)] at h1
          cases ss2 with
          | false =>
            rw [if_neg (by simp)] at h1
            cases i with
            | zero => simp [ItemObs.ret.injEq] at h1
            | succ i => simp at h1
          | true =>
            rw [if_pos rfl] at h1
            rw [if_neg (by simp), if_pos rfl]
            cases i with
            | zero => simp [ItemObs.ret.injEq] at h1
            | succ i =>
              simp only [List.get?_cons_succ] at h1
              exact ih (j + 1) (k + 1) i te ss h1
    · rw [if_neg hk] at h1 ⊢
      refine ⟨k, by omega, by simpa using hk⟩

/-- Helper: when the loop-top read of `settings.enable` returns false, the
pagination loop exits before fetching. -/
theorem syncLoop_disabled (env : SyncEnv) (fuel p k : Nat)
    (hk : env.enable k = false) (hf : fuel ≠ 0) :
    syncLoop env fuel p k = some (0, k + 1, [], false) := by
  rcases fuel with _ | f
  · exact absurd rfl hf
  · rw [syncLoop, if_neg (by simp [hk])]

/-- Helper: in any terminating pagination loop whose page `q` (relative to
the start) recorded a stopping outcome (`pluginEnable = false` or
`taskExist = false`) at item `i`, that item is the last one attempted on the
page, and in the `pluginEnable = false` case (with the enable flag staying
false once false) no page beyond `q` is fetched. -/
theorem syncLoop_item_stop (env : SyncEnv)
    (hmono : ∀ a b, a ≤ b → env.enable a = false → env.enable b = false) :
    ∀ fuel p k f k2 pages c q l i pe te ss,
      syncLoop env fuel p k = some (f, k2, pages, c) →
      pages.get? q = some l →
      l.get? i = some (.ret pe te ss) →
      (pe = false ∨ te = false) →
      l.length = i + 1 ∧ (pe = false → f = q + 1) := by
  intro fuel
  induction fuel with
  | zero =>
    intro p k f k2 pages c q l i pe te ss h1 _ _ _
    simp [syncLoop] at h1
  | succ n ih =>
    intro p k f k2 pages c q l i pe te ss h1 hq hi hstop
    have hstop2 : pe = false ∨ te = false ∨ ss = false := by
      rcases hstop with h | h
      · exact Or.inl h
      · exact Or.inr (Or.inl h)
    rw [syncLoop] at h1
    by_cases hk : env.enable k = true
    · rw [if_pos hk] at h1
      cases hpg : env.pages p with
      | error e =>
        simp only [hpg] at h1
        simp only [Option.some_inj, Prod.mk.injEq] at h1
        obtain ⟨-, -, h1c, -⟩ := h1
        subst h1c
        simp at hq
      | ok page =>
        simp only [hpg] at h1
        by_cases hv : page.valid = false
        · rw [if_pos hv] at h1
          simp only [Option.some_inj, Prod.mk.injEq] at h1
          obtain ⟨-, -, h1c, -⟩ := h1
          subst h1c
          simp at hq
        · rw [if_neg hv] at h1
          by_cases hz : page.result.length = 0
          · rw [if_pos hz] at h1
            simp only [Option.some_inj, Prod.mk.injEq] at h1
            obtain ⟨-, -, h1c, -⟩ := h1
            subst h1c
            simp at hq
          · rw [if_neg hz] at h1
            by_cases hm : page.result.length = page.limit
            · rw [if_pos hm] at h1
              rcases hrec : syncLoop env n (p + 1)
                  (pageLoop env p page.result 0 (k + 1)).1 with _ |
                  ⟨f2, k3, rest, c2⟩
              · rw [hrec] at h1
                simp at h1
              · rw [hrec] at h1
                simp only [Option.some_inj, Prod.mk.injEq] at h1
                obtain ⟨h1a, -, h1c, -⟩ := h1
                subst h1a
                subst h1c
                cases q with
                | zero =>
                  simp only [List.get?_cons_zero, Option.some_inj] at hq
                  subst hq
                  refine ⟨pageLoop_stop_last env p page.result 0 (k + 1) i pe
                    te ss hi hstop2, ?_⟩
                  intro hpe
                  subst hpe
                  obtain ⟨m, hm1, hm2⟩ :=
                    pageLoop_pe_false env p page.result 0 (k + 1) i te ss hi
                  have hd := hmono m (pageLoop env p page.result 0 (k + 1)).1
                    (by omega) hm2
                  have hn : n ≠ 0 := by
                    intro h0
                    subst h0
                    simp [syncLoop] at hrec
                  rw [syncLoop_disabled env n (p + 1)
                    (pageLoop env p page.result 0 (k + 1)).1 hd hn] at hrec
                  simp only [Option.some_inj, Prod.mk.injEq] at hrec
                  omega
                | succ q =>
                  simp only [List.get?_cons_succ] at hq
                  have hIH := ih (p + 1) (pageLoop env p page.result 0 (k + 1)).1
                    f2 k3 rest c2 q l i pe te ss hrec hq hi hstop
                  refine ⟨hIH.1, fun hpe => ?_⟩
                  have h3 := hIH.2 hpe
                  omega
            · rw [if_neg hm] at h1
              simp only [Option.some_inj, Prod.mk.injEq] at h1
              obtain ⟨h1a, -, h1c, -⟩ := h1
              subst h1a
              subst h1c
              cases q with
              | zero =>
                simp only [List.get?_cons_zero, Option.some_inj] at hq
                subst hq
                exact ⟨pageLoop_stop_last env p page.result 0 (k + 1) i pe te
                  ss hi hstop2, fun _ => rfl⟩
              | succ q => simp at hq
    · rw [if_neg hk] at h1
      simp only [Option.some_inj, Prod.mk.injEq] at h1
      obtain ⟨-, -, h1c, -⟩ := h1
      subst h1c
      simp at hq

/-- C1, counterexample.  In `envC1`, the only materialization attempt of the
run (item 0 of page 0) returns `taskExist = false`, the rest of that page is
not attempted — yet a second page is fetched, because the `break` at
src/main.ts line 175 only exits the inner for-loop and `hasMore` (line 190)
still sees a full page: `fetches = 2`, contradicting the claim that no
further page of tasks is fetched in that run. -/
theorem sync_taskExist_continues_cex :
    sync envC1 sPre 1 5 = some rC1 ∧
    rC1.attempted = [[ItemObs.ret true false false]] ∧
    rC1.fetches = 2 ∧ rC1.fetches ≠ 1 := by
  refine ⟨by decide, by decide, by decide, by decide⟩

/-- C1, amended: whenever a materialization attempt returns
`pluginEnable = false` or `taskExist = false`, no further task in that page
is attempted; when it returns `pluginEnable = false` (the enable flag staying
false once false, as a plugin unload leaves it), no further page is fetched
either; but after `taskExist = false` the pagination loop itself is not
stopped — the run fetches a further page when the current page was full. -/
theorem sync_item_stop (env : SyncEnv) (s : Settings) (now fuel : Nat)
    (r : RunResult) (p : Nat) (l : List ItemObs) (i : Nat) (pe te ss : Bool)
    (hmono : ∀ a b, a ≤ b → env.enable a = false → env.enable b = false)
    (hr : sync env s now fuel = some r)
    (hp : r.attempted.get? p = some l)
    (hi : l.get? i = some (.ret pe te ss))
    (hstop : pe = false ∨ te = false) :
    l.length = i + 1 ∧ (pe = false → r.fetches = p + 1) := by
  rw [sync] at hr
  by_cases ht : tokenFalsy s.token = true
  · rw [if_pos ht] at hr
    simp only [Option.some_inj] at hr
    subst hr
    simp at hp
  · rw [if_neg ht] at hr
    by_cases hs : s.syncing = true
    · rw [if_pos hs] at hr
      simp only [Option.some_inj] at hr
      subst hr
      simp at hp
    · rw [if_neg hs] at hr
      rcases hE : syncLoop env fuel 0 0 with _ | ⟨f, k2, pages, c⟩
      · rw [hE] at hr
        simp at hr
      · rw [hE] at hr
        simp only [Option.some_inj] at hr
        subst hr
        exact syncLoop_item_stop env hmono fuel 0 0 f k2 pages c p l i pe te
          ss hE hp hi hstop

/-- C1, witness: `sync_item_stop` on `envC1pe`, where the plugin is disabled
between the two items of a full first page: the `pluginEnable = false`
outcome at item 1 ends the page (length 2) and the run performs no second
fetch (`fetches = 0 + 1`). -/
theorem sync_item_stop_witness :
    ([ItemObs.ret true true true, ItemObs.ret false false false]).length =
      1 + 1 ∧
    (false = false → rC1pe.fetches = 0 + 1) :=
  sync_item_stop envC1pe sPre 1 5 rC1pe 0
    [ItemObs.ret true true true, ItemObs.ret false false false] 1 false false
    false
    (by
      intro a b hab ha
      simp only [envC1pe, decide_eq_false_iff_not, not_lt] at ha ⊢
      omega)
    (by decide) (by decide) (by decide) (Or.inl rfl)

/-! ## C5: Title sanitization -/

/-- Helper: characters surviving whitespace collapse are the substituted
space or characters of the input. -/
theorem mem_collapseWsAux (c : Char) :
    ∀ (b : Bool) (l : List Char), c ∈ collapseWsAux b l → c = ' ' ∨ c ∈ l := by
  intro b l
  induction l generalizing b with
  | nil => intro h; simp [collapseWsAux] at h
  | cons d cs ih =>
    intro h
    rw [collapseWsAux] at h
    by_cases hd : isJsSpace d = true
    · rw [if_pos hd] at h
      cases b with
      | true =>
        rw [if_pos rfl] at h
        rcases ih true h with h2 | h2
        · exact Or.inl h2
        · exact Or.inr (List.mem_cons_of_mem d h2)
      | false =>
        rw [if_neg (by simp)] at h
        rcases List.mem_cons.mp h with h2 | h2
        · exact Or.inl h2
        · rcases ih true h2 with h3 | h3
          · exact Or.inl h3
          · exact Or.inr (List.mem_cons_of_mem d h3)
    · rw [if_neg hd] at h
      rcases List.mem_cons.mp h with h2 | h2
      · exact Or.inr (h2 ▸ List.mem_cons_self d cs)
      · rcases ih false h2 with h3 | h3
        · exact Or.inl h3
        · exact Or.inr (List.mem_cons_of_mem d h3)

/-- Helper: trimming only removes characters. -/
theorem mem_trimWs (c : Char) (l : List Char) (h : c ∈ trimWs l) : c ∈ l := by
  rw [trimWs, List.mem_reverse] at h
  have h2 := (List.dropWhile_sublist (p := isJsSpace)
    (l := (l.dropWhile isJsSpace).reverse)).subset h
  rw [List.mem_reverse] at h2
  exact (List.dropWhile_sublist (p := isJsSpace) (l := l)).subset h2

/-- Helper: every character of a sanitized title is neither a control
character nor one of the illegal characters. -/
theorem sanitizeTitle_chars (t : List Char) (c : Char)
    (hc : c ∈ sanitizeTitle t) :
    isCtrlChar c = false ∧ isIllegalChar c = false := by
  have key : ∀ d : Char,
      d ∈ trimWs (collapseWs ((t.filter (fun x => !isCtrlChar x)).map
        (fun x => if isIllegalChar x then '_' else x))) →
      isCtrlChar d = false ∧ isIllegalChar d = false := by
    intro d hd
    have h1 := mem_trimWs d _ hd
    rw [collapseWs] at h1
    rcases mem_collapseWsAux d false _ h1 with h2 | h2
    · subst h2
      exact ⟨by decide, by decide⟩
    · rcases List.mem_map.mp h2 with ⟨x, hx1, hx2⟩
      by_cases hil : isIllegalChar x = true
      · rw [if_pos hil] at hx2
        subst hx2
        exact ⟨by decide, by decide⟩
      · rw [if_neg hil] at hx2
        subst hx2
        rw [List.mem_filter] at hx1
        refine ⟨by simpa using hx1.2, by simpa using hil⟩
  have hplace : c ∈ placeholderTitle →
      isCtrlChar c = false ∧ isIllegalChar c = false := by
    intro hcp
    simp only [placeholderTitle, List.mem_cons, List.not_mem_nil,
      or_false] at hcp
    rcases hcp with rfl | rfl | rfl | rfl <;> exact ⟨by decide, by decide⟩
  simp only [sanitizeTitle] at hc
  split at hc
  · split at hc
    · exact hplace hc
    · exact key c (List.take_subset 100 _ hc)
  · split at hc
    · exact hplace hc
    · exact key c hc

/-- Helper: a sanitized title has at most 100 characters. -/
theorem sanitizeTitle_length (t : List Char) :
    (sanitizeTitle t).length ≤ 100 := by
  simp only [sanitizeTitle]
  split
  · split
    · decide
    · simp [List.length_take]
  · split
    · decide
    · omega

/-- Helper: splitting a slash-free list yields a single segment. -/
theorem splitSlash_no_slash :
    ∀ (l acc : List Char), '/' ∉ l →
      splitSlash l acc = [acc.reverse ++ l] := by
  intro l
  induction l with
  | nil => intro acc _; simp [splitSlash]
  | cons c cs ih =>
    intro acc h
    have hc : ¬(c = '/') := fun he =>
      h (by rw [he]; exact List.mem_cons_self _ _)
    rw [splitSlash, if_neg hc,
      ih (c :: acc) (fun hm => h (List.mem_cons_of_mem c hm))]
    simp

/-- Helper: on a separator-free list, path normalization is the identity
except on the special segments `""`, `"."`, `".."`, which collapse to the
empty path. -/
theorem normalizePath_no_slash (l : List Char) (h1 : '/' ∉ l)
    (h2 : '\\' ∉ l) :
    normalizePath l = l ∨ normalizePath l = [] := by
  have hmap : ∀ m : List Char, '\\' ∉ m →
      m.map (fun c => if c = '\\' then '/' else c) = m := by
    intro m
    induction m with
    | nil => intro _; rfl
    | cons c cs ih =>
      intro hm
      have hc : ¬(c = '\\') := fun he =>
        hm (by rw [he]; exact List.mem_cons_self _ _)
      rw [List.map_cons, if_neg hc,
        ih (fun hx => hm (List.mem_cons_of_mem c hx))]
  rw [normalizePath, hmap l h2, splitSlash_no_slash l [] h1]
  by_cases hl : l = [] ∨ l = ['.']
  · right
    simp [resolveSegs, joinSlash, hl]
  · by_cases hdd : l = ['.', '.']
    · right
      simp [resolveSegs, joinSlash, hl, hdd]
    · left
      simp [resolveSegs, joinSlash, hl, hdd]

/-- Helper: whitespace characters are not among the illegal characters. -/
theorem space_not_illegal (c : Char) (h : isJsSpace c = true) :
    isIllegalChar c = false := by
  have h4 : ∀ x ∈ illegalChars, isJsSpace x = false := by decide
  cases hx : isIllegalChar c with
  | false => rfl
  | true =>
    rw [isIllegalChar] at hx
    rw [h4 c (of_decide_eq_true hx)] at h
    exact absurd h (by simp)

/-- Helper: collapsing an all-whitespace list yields at most one space. -/
theorem collapseWsAux_all_space :
    ∀ l : List Char, (∀ c ∈ l, isJsSpace c = true) →
      collapseWsAux true l = [] ∧
      collapseWsAux false l = (if l = [] then [] else [' ']) := by
  intro l
  induction l with
  | nil => exact fun _ => ⟨rfl, rfl⟩
  | cons c cs ih =>
    intro h
    have hc : isJsSpace c = true := h c (List.mem_cons_self c cs)
    have hrest := ih (fun d hd => h d (List.mem_cons_of_mem c hd))
    constructor
    · rw [collapseWsAux, if_pos hc, if_pos rfl, hrest.1]
    · rw [collapseWsAux, if_pos hc, if_neg (by simp), hrest.1,
        if_neg (by simp)]

/-- Helper: an input consisting only of control characters and whitespace
sanitizes to the placeholder title. -/
theorem sanitizeTitle_all_space (t : List Char)
    (h : ∀ c ∈ t, isCtrlChar c = true ∨ isJsSpace c = true) :
    sanitizeTitle t = placeholderTitle := by
  have h1 : ∀ c ∈ t.filter (fun x => !isCtrlChar x), isJsSpace c = true := by
    intro c hc
    rw [List.mem_filter] at hc
    rcases h c hc.1 with hx | hx
    · rw [hx] at hc
      simp at hc
    · exact hx
  have h2 : (t.filter (fun x => !isCtrlChar x)).map
      (fun x => if isIllegalChar x then '_' else x) =
      t.filter (fun x => !isCtrlChar x) := by
    have e1 : ∀ c ∈ t.filter (fun x => !isCtrlChar x),
        (fun x => if isIllegalChar x then '_' else x) c =
        (fun x => x) c :=
      fun c hc => by simp [space_not_illegal c (h1 c hc)]
    rw [List.map_congr_left e1, List.map_id']
  rcases collapseWsAux_all_space _ h1 with ⟨-, hcol⟩
  have htr : trimWs [' '] = [] := by decide
  have htr0 : trimWs [] = [] := by decide
  simp only [sanitizeTitle, collapseWs, h2, hcol]
  by_cases hf : t.filter (fun x => !isCtrlChar x) = []
  · simp [hf, htr0]
  · simp [hf, htr]

/-- C5, confirmed: for every input title, the result of `_normalizeTitle`
contains no control characters and none of the characters
`< > : " / \ | ? *`, has at most 100 characters, and when the input consists
only of characters removed or trimmed away by sanitization (control
characters and whitespace — in particular an empty input) the result is the
fixed placeholder title `暂无标题`. -/
theorem normalizeTitle_sanitized (t : List Char) :
    (∀ c ∈ normalizeTitle t, isCtrlChar c = false ∧ isIllegalChar c = false) ∧
    (normalizeTitle t).length ≤ 100 ∧
    ((∀ c ∈ t, isCtrlChar c = true ∨ isJsSpace c = true) →
      normalizeTitle t = placeholderTitle) := by
  have hslash : '/' ∉ sanitizeTitle t := by
    intro hm
    have h1 := (sanitizeTitle_chars t _ hm).2
    have h2 : isIllegalChar '/' = true := by decide
    rw [h2] at h1
    exact absurd h1 (by simp)
  have hbsl : '\\' ∉ sanitizeTitle t := by
    intro hm
    have h1 := (sanitizeTitle_chars t _ hm).2
    have h2 : isIllegalChar '\\' = true := by decide
    rw [h2] at h1
    exact absurd h1 (by simp)
  refine ⟨?_, ?_, ?_⟩
  · intro c hc
    rw [normalizeTitle] at hc
    rcases normalizePath_no_slash (sanitizeTitle t) hslash hbsl with hN | hN
    · rw [hN] at hc
      exact sanitizeTitle_chars t c hc
    · rw [hN] at hc
      exact absurd hc (List.not_mem_nil c)
  · rw [normalizeTitle]
    rcases normalizePath_no_slash (sanitizeTitle t) hslash hbsl with hN | hN
    · rw [hN]
      exact sanitizeTitle_length t
    · rw [hN]
      simp
  · intro hall
    rw [normalizeTitle, sanitizeTitle_all_space t hall]
    decide

/-- C5, witness: `normalizeTitle_sanitized` at concrete titles — an
all-whitespace title becomes the placeholder, and a title with an illegal
character stays within the length bound. -/
theorem normalizeTitle_sanitized_witness :
    normalizeTitle [' ', '\t', ' '] = placeholderTitle ∧
    (normalizeTitle ['a', '<', 'b']).length ≤ 100 :=
  ⟨(normalizeTitle_sanitized [' ', '\t', ' ']).2.2 (by decide),
    (normalizeTitle_sanitized ['a', '<', 'b']).2.1⟩

end Newledge
